import Mathlib

set_option linter.unusedVariables false
set_option linter.dupNamespace false

/-! Verification of the Connect-4 game backend.

The 6-row by 7-column grid of src/internal/game/game.go is modelled as a
total function from integer coordinates to integer cell values. The Go
code reads the array only at guarded indices (or at indices the caller
keeps in range), so the function model agrees with the array on every
access the code performs. Row 0 is the top of the board, row 5 the
bottom; value 0 is an empty cell, 1 and 2 are the two players' tokens.

Fields of the Go structs that only serve persistence or logging (the
database handle, timestamps, the DB record id) are omitted; the
database writes in CheckGameCompletion are external effects with no
bearing on the in-memory state transitions modelled here. -/

namespace Game

abbrev Grid := Int → Int → Int

/-- The LastMove record nested in game.Board. -/
structure LastMove where
  row : Int
  column : Int
  player : Int
deriving DecidableEq

/-- game.Board: the grid plus the size fields and the last move. -/
structure Board where
  grid : Grid
  columns : Int
  rows : Int
  lastMove : LastMove

/-- game.Player. -/
structure Player where
  id : String
  username : String
  isBot : Bool
deriving DecidableEq

/-- game.Game (DB handle, timestamps and DB id omitted). -/
structure Game where
  id : String
  board : Board
  player1 : Player
  player2 : Player
  currentTurn : Int
  isActive : Bool

/-- Functional update of one grid cell (the Go assignment
Grid[r][c] = v seen through the function model). -/
def setCell (g : Grid) (r c v : Int) : Grid :=
  fun r' c' => if r' = r ∧ c' = c then v else g r' c'

/-- The inner counting loop of the horizontal pass of CheckWin for a
given window shift c: counts i in 0..3 with the column guard satisfied
and the cell equal to the player. -/
def horizCount (g : Grid) (row col player : Int) (c : Nat) : Nat :=
  (List.range 4).countP fun (i : Nat) =>
    decide (0 ≤ col - (c : Int) + (i : Int) ∧ col - (c : Int) + (i : Int) < 7 ∧
            g row (col - (c : Int) + (i : Int)) = player)

/-- The inner counting loop of the vertical pass of CheckWin. -/
def vertCount (g : Grid) (row col player : Int) (r : Nat) : Nat :=
  (List.range 4).countP fun (i : Nat) =>
    decide (0 ≤ row - (r : Int) + (i : Int) ∧ row - (r : Int) + (i : Int) < 6 ∧
            g (row - (r : Int) + (i : Int)) col = player)

/-- The inner counting loop of the first diagonal pass (top-left to
bottom-right) of CheckWin for a given shift i in -3..0. -/
def diag1Count (g : Grid) (row col player : Int) (i : Int) : Nat :=
  (List.range 4).countP fun (j : Nat) =>
    decide (0 ≤ row + i + (j : Int) ∧ row + i + (j : Int) < 6 ∧
            0 ≤ col + i + (j : Int) ∧ col + i + (j : Int) < 7 ∧
            g (row + i + (j : Int)) (col + i + (j : Int)) = player)

/-- The inner counting loop of the second diagonal pass (top-right to
bottom-left) of CheckWin for a given shift i in -3..0. -/
def diag2Count (g : Grid) (row col player : Int) (i : Int) : Nat :=
  (List.range 4).countP fun (j : Nat) =>
    decide (0 ≤ row + i + (j : Int) ∧ row + i + (j : Int) < 6 ∧
            0 ≤ col - i - (j : Int) ∧ col - i - (j : Int) < 7 ∧
            g (row + i + (j : Int)) (col - i - (j : Int)) = player)

/-- Game.CheckWin expressed over its inputs: the four window families,
each succeeding when some window reaches a count of 4 (the Go loops
return true as soon as count == 4; the shifts i = -3..0 of the diagonal
loops are enumerated as k - 3 for k = 0..3). -/
def checkWinAt (g : Grid) (row col player : Int) : Bool :=
  ((List.range 4).any fun (c : Nat) => horizCount g row col player c == 4) ||
  ((List.range 4).any fun (r : Nat) => vertCount g row col player r == 4) ||
  ((List.range 4).any fun (k : Nat) => diag1Count g row col player ((k : Int) - 3) == 4) ||
  ((List.range 4).any fun (k : Nat) => diag2Count g row col player ((k : Int) - 3) == 4)

/-- Game.CheckWin: reads the last move and runs the four passes. -/
def checkWin (g : Game) : Bool :=
  checkWinAt g.board.grid g.board.lastMove.row g.board.lastMove.column g.board.lastMove.player

/-- Board.IsBoardFull: every top-row cell is occupied. -/
def isBoardFull (b : Board) : Bool :=
  (List.range 7).all fun (col : Nat) => decide (b.grid 0 (col : Int) ≠ 0)

/-- Board.IsValidMove: the column is in range and its top cell empty. -/
def isValidMove (b : Board) (column : Int) : Bool :=
  if column < 0 ∨ 7 ≤ column then false
  else decide (b.grid 0 column = 0)

/-- The row-finding loop of MakeMove: starting from row 5, step upward
while the current row is in range and occupied. Seven fuel steps cover
the at most six decrements the Go loop can take. -/
def findRowAux (g : Grid) (column : Int) : Nat → Int → Int
  | 0, row => row
  | fuel + 1, row =>
      if 0 ≤ row ∧ g row column ≠ 0 then findRowAux g column fuel (row - 1) else row

/-- The landing row chosen by MakeMove for a column. -/
def findRow (g : Grid) (column : Int) : Int :=
  findRowAux g column 7 5

/-- Result of MakeMove: the error (if any) together with the game state
after the call; the Go method mutates the receiver, so on error the
game comes back unchanged. -/
structure MoveResult where
  err : Option String
  game : Game

/-- Game.CheckGameCompletion: deactivate the game on a win, else on a
full board (the DB write it also performs is an external effect). -/
def checkGameCompletion (g : Game) : Game :=
  if checkWin g then { g with isActive := false }
  else if isBoardFull g.board then { g with isActive := false }
  else g

/-- Game.MakeMove: reject an invalid column, otherwise drop the current
player's token on the found row, record it as the last move, switch the
turn and re-evaluate completion. -/
def makeMove (g : Game) (column : Int) : MoveResult :=
  if ¬ isValidMove g.board column then
    { err := some "invalid move: column is full or out of bounds", game := g }
  else
    let row := findRow g.board.grid column
    let g' : Game :=
      { g with
          board :=
            { g.board with
                grid := setCell g.board.grid row column g.currentTurn
                lastMove := { row := row, column := column, player := g.currentTurn } }
          currentTurn := 3 - g.currentTurn }
    { err := none, game := checkGameCompletion g' }

/-- game.GameStatus (state.go). -/
inductive GameStatus
  | waiting
  | inProgress
  | completed
  | draw
deriving DecidableEq

/-- Which player struct the Winner field of the snapshot points at. -/
inductive WinnerSlot
  | player1
  | player2
deriving DecidableEq

/-- game.GameState (state.go): the exported snapshot. -/
structure GameState where
  id : String
  boardCopy : Grid
  currentTurn : Int
  status : GameStatus
  winner : Option WinnerSlot
  lastMove : LastMove

/-- Game.GetState (state.go): derive the status from isActive, the full
board and the win check, resolving the winner from the last move. -/
def getState (g : Game) : GameState :=
  let base : GameState :=
    { id := g.id, boardCopy := g.board.grid, currentTurn := g.currentTurn,
      status := GameStatus.inProgress, winner := none, lastMove := g.board.lastMove }
  if g.isActive then base
  else if isBoardFull g.board then { base with status := GameStatus.draw }
  else if checkWin g then
    { base with
        status := GameStatus.completed,
        winner := some (if g.board.lastMove.player = 1 then WinnerSlot.player1
                        else WinnerSlot.player2) }
  else { base with status := GameStatus.completed }

/-- Game.IsGameOver (state.go). -/
def isGameOver (g : Game) : Bool :=
  checkWin g || isBoardFull g.board

/-- The zero-initialised grid of a fresh Go Board value. -/
def emptyGrid : Grid := fun _ _ => 0

/-- game.NewGame: fresh board, player 1 to move, active; the generated
uuid is taken as a parameter. -/
def newGame (id : String) (player1 player2 : Player) : Game :=
  { id := id,
    board := { grid := emptyGrid, columns := 7, rows := 6,
               lastMove := { row := 0, column := 0, player := 0 } },
    player1 := player1, player2 := player2,
    currentTurn := 1, isActive := true }

/-- Games reachable from a fresh game by successful MakeMove calls. -/
inductive Reachable : Game → Prop
  | new (id : String) (p1 p2 : Player) : Reachable (newGame id p1 p2)
  | step (g : Game) (col : Int) (h : Reachable g) (hok : (makeMove g col).err = none) :
      Reachable ((makeMove g col).game)

/-- Cell bounds of the 6 by 7 board, written from the spec. -/
abbrev inBoard (r c : Int) : Prop := 0 ≤ r ∧ r < 6 ∧ 0 ≤ c ∧ c < 7

/-- Written from the spec: a line of 4 consecutive cells in direction
(dr, dc) whose k-th cell (k < 4) is exactly (row, col), each cell on
the board and holding the mover's value. -/
def lineThrough (b : Grid) (row col player dr dc : Int) : Prop :=
  ∃ k : Nat, k < 4 ∧ ∀ j : Nat, j < 4 →
    inBoard (row + dr * ((j : Int) - (k : Int))) (col + dc * ((j : Int) - (k : Int))) ∧
    b (row + dr * ((j : Int) - (k : Int))) (col + dc * ((j : Int) - (k : Int))) = player

/-- Written from the spec: some length-4 line through (row, col) --
horizontal, vertical, or along either diagonal -- is monochromatic in
the mover's value. -/
def winningLineThrough (b : Grid) (row col player : Int) : Prop :=
  lineThrough b row col player 0 1 ∨ lineThrough b row col player 1 0 ∨
  lineThrough b row col player 1 1 ∨ lineThrough b row col player 1 (-1)

end Game

namespace Bot

/-! Embedding of src/internal/bot/bot.go. The [][]int board snapshot is
modelled with the same functional grid as the engine; copyBoard is the
identity under this pure model. The source computes scores in float64
with math.Inf sentinels; every score it manipulates is integer-valued
(the heuristic adds small integers, terminals are plus or minus 10^6)
and far below 2^53, so float64 arithmetic is exact and the infinities
only ever feed comparisons. They are therefore modelled as integer
sentinels strictly outside the attainable score range. -/

def maxDepth : Nat := 6

def winScore : Int := 1000000

def loseScore : Int := -1000000

def botPlayer : Int := 2

def humanPlayer : Int := 1

/-- Sentinel for math.Inf(-1). -/
def negInf : Int := -(10 ^ 9)

/-- Sentinel for math.Inf(1). -/
def posInf : Int := 10 ^ 9

/-- bot isValidMove: in-range column with an empty top cell. -/
def isValidMove (board : Game.Grid) (col : Int) : Bool :=
  decide (0 ≤ col ∧ col < 7 ∧ board 0 col = 0)

/-- The row-descending placement loop of the bot's makeMove. -/
def makeMoveAux (board : Game.Grid) (col player : Int) : Nat → Int → Game.Grid
  | 0, _ => board
  | fuel + 1, row =>
      if board row col = 0 then Game.setCell board row col player
      else makeMoveAux board col player fuel (row - 1)

/-- bot makeMove: drop a token on the lowest empty row of the column
(no change when the column is full). -/
def makeMove (board : Game.Grid) (col player : Int) : Game.Grid :=
  makeMoveAux board col player 6 5

/-- bot isWinningBoard: full-board scan of all length-4 windows. -/
def isWinningBoard (board : Game.Grid) (player : Int) : Bool :=
  ((List.range 6).any fun (row : Nat) => (List.range 4).any fun (col : Nat) =>
    decide (board (row : Int) (col : Int) = player ∧
            board (row : Int) ((col : Int) + 1) = player ∧
            board (row : Int) ((col : Int) + 2) = player ∧
            board (row : Int) ((col : Int) + 3) = player)) ||
  ((List.range 3).any fun (row : Nat) => (List.range 7).any fun (col : Nat) =>
    decide (board (row : Int) (col : Int) = player ∧
            board ((row : Int) + 1) (col : Int) = player ∧
            board ((row : Int) + 2) (col : Int) = player ∧
            board ((row : Int) + 3) (col : Int) = player)) ||
  ((List.range 3).any fun (row : Nat) => (List.range 4).any fun (col : Nat) =>
    decide (board (row : Int) (col : Int) = player ∧
            board ((row : Int) + 1) ((col : Int) + 1) = player ∧
            board ((row : Int) + 2) ((col : Int) + 2) = player ∧
            board ((row : Int) + 3) ((col : Int) + 3) = player)) ||
  ((List.range 3).any fun (r0 : Nat) => (List.range 4).any fun (col : Nat) =>
    decide (board ((r0 : Int) + 3) (col : Int) = player ∧
            board ((r0 : Int) + 2) ((col : Int) + 1) = player ∧
            board ((r0 : Int) + 1) ((col : Int) + 2) = player ∧
            board (r0 : Int) ((col : Int) + 3) = player))

/-- bot isBoardFull: the top row is fully occupied. -/
def isBoardFull (board : Game.Grid) : Bool :=
  (List.range 7).all fun (col : Nat) => decide (board 0 (col : Int) ≠ 0)

/-- evaluateWindow: score one length-4 window by token composition. -/
def evaluateWindow (w : List Int) : Int :=
  let botCount := w.countP fun cell => decide (cell = botPlayer)
  let humanCount := w.countP fun cell => decide (cell = humanPlayer)
  let emptyCount := w.countP fun cell => decide (cell = 0)
  if botCount = 4 then 100
  else if botCount = 3 ∧ emptyCount = 1 then 5
  else if botCount = 2 ∧ emptyCount = 2 then 2
  else if humanCount = 3 ∧ emptyCount = 1 then -4
  else 0

/-- evaluatePosition: sum of all window scores plus the center bonus. -/
def evaluatePosition (board : Game.Grid) : Int :=
  let horiz := ((List.range 6).map fun (r : Nat) =>
    (((List.range 4).map fun (c : Nat) =>
      evaluateWindow [board (r : Int) (c : Int), board (r : Int) ((c : Int) + 1),
                      board (r : Int) ((c : Int) + 2), board (r : Int) ((c : Int) + 3)]).sum)).sum
  let vert := ((List.range 3).map fun (r : Nat) =>
    (((List.range 7).map fun (c : Nat) =>
      evaluateWindow [board (r : Int) (c : Int), board ((r : Int) + 1) (c : Int),
                      board ((r : Int) + 2) (c : Int), board ((r : Int) + 3) (c : Int)]).sum)).sum
  let diagPos := ((List.range 3).map fun (r : Nat) =>
    (((List.range 4).map fun (c : Nat) =>
      evaluateWindow [board (r : Int) (c : Int), board ((r : Int) + 1) ((c : Int) + 1),
                      board ((r : Int) + 2) ((c : Int) + 2),
                      board ((r : Int) + 3) ((c : Int) + 3)]).sum)).sum
  let diagNeg := ((List.range 3).map fun (r0 : Nat) =>
    (((List.range 4).map fun (c : Nat) =>
      evaluateWindow [board ((r0 : Int) + 3) (c : Int), board ((r0 : Int) + 2) ((c : Int) + 1),
                      board ((r0 : Int) + 1) ((c : Int) + 2),
                      board (r0 : Int) ((c : Int) + 3)]).sum)).sum
  let centerCount : Int := ((List.range 6).countP fun (r : Nat) =>
    decide (board (r : Int) 3 = botPlayer) : Nat)
  horiz + vert + diagPos + diagNeg + centerCount * 3

/-- minimax with alpha-beta pruning, structurally recursive on the
depth. Each for-loop over the 7 columns is a fold whose accumulator
carries (best score so far, the mutated alpha or beta, a stopped flag);
the flag models the break: once beta less-or-equal alpha triggers, the
remaining iterations leave the accumulator untouched, exactly as the
Go loop body is skipped after break. -/
def minimax : Game.Grid → Nat → Int → Int → Bool → Int
  | board, 0, _, _, _ =>
      if isWinningBoard board botPlayer then winScore
      else if isWinningBoard board humanPlayer then loseScore
      else evaluatePosition board
  | board, d + 1, alpha, beta, maximizing =>
      if isWinningBoard board botPlayer then winScore
      else if isWinningBoard board humanPlayer then loseScore
      else if isBoardFull board then evaluatePosition board
      else if maximizing then
        (((List.range 7).foldl (fun (acc : Int × Int × Bool) (col : Nat) =>
            if acc.2.2 then acc
            else if isValidMove board (col : Int) then
              let score := minimax (makeMove board (col : Int) botPlayer) d acc.2.1 beta false
              let maxScore := max acc.1 score
              let alpha2 := max acc.2.1 score
              (maxScore, alpha2, decide (beta ≤ alpha2))
            else acc)
          (negInf, alpha, false))).1
      else
        (((List.range 7).foldl (fun (acc : Int × Int × Bool) (col : Nat) =>
            if acc.2.2 then acc
            else if isValidMove board (col : Int) then
              let score := minimax (makeMove board (col : Int) humanPlayer) d alpha acc.2.1 true
              let minScore := min acc.1 score
              let beta2 := min acc.2.1 score
              (minScore, beta2, decide (beta2 ≤ alpha))
            else acc)
          (posInf, beta, false))).1

/-- checkWinningMove: the first legal column whose simulated drop wins
for the player, else -1. -/
def checkWinningMove (board : Game.Grid) (player : Int) : Int :=
  match (List.range 7).find? (fun (col : Nat) =>
      isValidMove board (col : Int) &&
      isWinningBoard (makeMove board (col : Int) player) player) with
  | some col => (col : Int)
  | none => -1

/-- checkBlockingMove: flips to the opponent of its argument and
re-runs checkWinningMove. -/
def checkBlockingMove (board : Game.Grid) (player : Int) : Int :=
  let opponent := 3 - player
  checkWinningMove board opponent

/-- The root search loop of CalculateNextMove: fold over the columns
carrying (bestScore, bestMove, alpha); beta stays at the positive
sentinel and the root loop never breaks. -/
def rootSearch (board : Game.Grid) : Int :=
  (((List.range 7).foldl (fun (acc : Int × Int × Int) (col : Nat) =>
      if isValidMove board (col : Int) then
        let score := minimax (makeMove board (col : Int) botPlayer) maxDepth acc.2.2 posInf false
        if score > acc.1 then (score, (col : Int), max acc.2.2 score)
        else (acc.1, acc.2.1, max acc.2.2 score)
      else acc)
    (negInf, 3, negInf))).2.1

/-- Bot.CalculateNextMove: immediate win, then the (broken) block
check, then minimax with the center column as the default move. -/
def calculateNextMove (board : Game.Grid) : Int :=
  let m1 := checkWinningMove board botPlayer
  if m1 ≠ -1 then m1
  else
    let m2 := checkBlockingMove board humanPlayer
    if m2 ≠ -1 then m2
    else rootSearch board

end Bot

namespace WS

/-! Embedding of the hub (src/internal/ws/hub.go and the websocket
game-handling file). Clients are modelled by value: the Go pointer
identity used for map keys and in-place mutation is replaced by
record values located by username (usernames are unique per active
client, per the spec's data model). A client's outbound channel is
abstracted to a hasSend flag: a send attempt delivers exactly when the
looked-up client has a channel (nil channels and the drop-if-full
select default are the undelivered cases). Timers are modelled by a
timerRunning flag on the client record: arming sets it, Stop clears
it; the delayed callbacks themselves are out of scope (no real time).
The database side of storeGameResult is an external effect; its
leaderboard broadcast is kept as an event. -/

/-- ws.Client (connection and timestamps abstracted as flags). -/
structure Client where
  username : String
  gameID : String
  isBot : Bool
  hasSend : Bool
  disconnected : Bool
  timerRunning : Bool
deriving DecidableEq

/-- Observable message events emitted by hub operations, tagged with
the receiver (broadcast and scheduling events carry the game id). -/
inductive Msg
  | errorMsg (toUser : String) (gameId : String)
  | gameStateMsg (toUser : String) (gameId : String)
  | gameFinishedMsg (toUser : String) (gameId : String)
  | leaderboardUpdateMsg (gameId : String)
  | waitingMsg (toUser : String)
  | gameStartMsg (toUser : String) (gameId : String)
  | botMoveScheduled (gameId : String)
deriving DecidableEq

/-- ws.WSGame: the engine state plus the two client slots and the
rematch requests. -/
structure WSGame where
  game : Game.Game
  player1Client : Client
  player2Client : Client
  playAgainRequests : List String

/-- ws.Hub: registered clients, the waiting slot, the session map
(modelled as an association list keyed by the game's uuid). -/
structure Hub where
  clients : List Client
  waitingPlayer : Option Client
  activeGames : List (String × WSGame)

/-- Lookup in the activeGames map. -/
def lookupGame (h : Hub) (gid : String) : Option WSGame :=
  match h.activeGames.find? (fun p => decide (p.1 = gid)) with
  | some p => some p.2
  | none => none

/-- Write-back of the session mutated through the map entry. -/
def updateGame (l : List (String × WSGame)) (gid : String) (g : WSGame) :
    List (String × WSGame) :=
  l.map fun p => if p.1 = gid then (p.1, g) else p

/-- The findClient variant the hub uses while already holding its lock:
scan the registered clients by username. -/
def findClientLocked (h : Hub) (username : String) : Option Client :=
  h.clients.find? fun c => decide (c.username = username)

/-- A best-effort send: one event when the username resolves to a
registered client with an outbound channel, nothing otherwise. -/
def sendEventTo (h : Hub) (username : String) (ev : Msg) : List Msg :=
  match findClientLocked h username with
  | some c => if c.hasSend then [ev] else []
  | none => []

/-- Hub.handleMove: look the session up by the client's game id, check
that the client is one of its players and that it is their turn, apply
the move, re-evaluate win/draw, store the result (leaderboard
broadcast), broadcast the snapshot, emit the finished event on a
terminal state and schedule the bot reply when due. The three failed
checks return without state change or message. -/
def handleMove (h : Hub) (client : Client) (column : Int) : Hub × List Msg :=
  match lookupGame h client.gameID with
  | none => (h, [])
  | some g =>
      let isPlayer1 := g.game.player1.id = client.username
      let isPlayer2 := g.game.player2.id = client.username
      if ¬ isPlayer1 ∧ ¬ isPlayer2 then (h, [])
      else if (g.game.currentTurn ≠ 1 ∧ isPlayer1) ∨ (g.game.currentTurn ≠ 2 ∧ isPlayer2) then
        (h, [])
      else
        let res := Game.makeMove g.game column
        match res.err with
        | some _ => (h, [Msg.errorMsg client.username g.game.id])
        | none =>
            let moved := res.game
            let won := Game.checkWin moved
            let full := Game.isBoardFull moved.board
            let completed :=
              if won then { moved with isActive := false }
              else if full then { moved with isActive := false }
              else moved
            let storeMsgs :=
              if won then [Msg.leaderboardUpdateMsg moved.id]
              else if full then [Msg.leaderboardUpdateMsg moved.id]
              else []
            let g2 := { g with game := completed }
            let h2 := { h with activeGames := updateGame h.activeGames client.gameID g2 }
            let stateMsgs :=
              sendEventTo h2 completed.player1.id
                  (Msg.gameStateMsg completed.player1.id completed.id) ++
              sendEventTo h2 completed.player2.id
                  (Msg.gameStateMsg completed.player2.id completed.id)
            let finishMsgs :=
              if completed.isActive = false then
                sendEventTo h2 completed.player1.id
                    (Msg.gameFinishedMsg completed.player1.id completed.id) ++
                sendEventTo h2 completed.player2.id
                    (Msg.gameFinishedMsg completed.player2.id completed.id)
              else []
            let botMsgs :=
              if completed.isActive = true ∧ completed.player2.isBot = true ∧
                  completed.currentTurn = 2 then
                [Msg.botMoveScheduled completed.id]
              else []
            (h2, storeMsgs ++ stateMsgs ++ finishMsgs ++ botMsgs)

/-- The synthesized bot participant created by the hub. -/
def botClient : Client :=
  { username := "AI Bot", gameID := "", isBot := true, hasSend := false,
    disconnected := false, timerRunning := false }

/-- Hub.createGame: build the engine state for the two clients (first
joiner as player 1), store their new game id, register the session
under the fresh uuid and push the initial snapshot to the humans. -/
def createGame (h : Hub) (player1 player2 : Client) (freshId : String) : Hub × List Msg :=
  let g := Game.newGame freshId
      { id := player1.username, username := player1.username, isBot := false }
      { id := player2.username, username := player2.username, isBot := player2.isBot }
  let p1 := { player1 with gameID := g.id }
  let p2 := { player2 with gameID := g.id }
  let wsg : WSGame := { game := g, player1Client := p1, player2Client := p2,
                        playAgainRequests := [] }
  let clients2 := h.clients.map fun c =>
    if c = player1 then p1 else if c = player2 then p2 else c
  let h2 := { h with clients := clients2, activeGames := (g.id, wsg) :: h.activeGames }
  let msgs :=
    (if p1.hasSend then [Msg.gameStartMsg p1.username g.id] else []) ++
    (if ¬ p2.isBot ∧ p2.hasSend then [Msg.gameStartMsg p2.username g.id] else [])
  (h2, msgs)

/-- Hub.reconnectClient: find a disconnected client with the same
username, adopt its game id, swap the registry entry and re-point the
session slot at the new connection. Reconnection is modelled as within
the 30-second grace window (wall-clock time is out of scope). -/
def reconnectClient (h : Hub) (client : Client) : Option (Hub × Client) :=
  match h.clients.find? (fun c => decide (c.username = client.username ∧
      c.disconnected = true)) with
  | none => none
  | some existing =>
      let client2 := { client with
        gameID := existing.gameID
        hasSend := true
        disconnected := false }
      let clients2 := client2 :: (h.clients.erase existing)
      let games2 := h.activeGames.map fun p =>
        if p.1 = client2.gameID then
          (if p.2.game.player1.id = client2.username then
            (p.1, { p.2 with player1Client := client2 })
          else if p.2.game.player2.id = client2.username then
            (p.1, { p.2 with player2Client := client2 })
          else p)
        else p
      some ({ h with clients := clients2, activeGames := games2 }, client2)

/-- Hub.handleNewPlayer: try reconnection first; computer mode spawns
a bot opponent at once; otherwise either park the joiner in the empty
waiting slot (send the waiting snapshot, arm the 10-second fallback
timer) or, when someone is waiting, stop their fallback timer, clear
the slot and pair the two (the waiting player first). -/
def handleNewPlayer (h : Hub) (client : Client) (gameMode : String) (freshId : String) :
    Hub × List Msg :=
  match reconnectClient h client with
  | some (h2, _) => (h2, [])
  | none =>
      if gameMode = "computer" then
        let h2 := { h with clients := botClient :: h.clients }
        createGame h2 client botClient freshId
      else
        match h.waitingPlayer with
        | none =>
            let waiting := { client with timerRunning := true }
            ({ h with waitingPlayer := some waiting },
             if client.hasSend then [Msg.waitingMsg client.username] else [])
        | some waiting =>
            let waiting2 := { waiting with timerRunning := false }
            let h2 := { h with waitingPlayer := none }
            createGame h2 waiting2 client freshId

end WS

/-! Concrete fixtures used by witnesses and counterexamples. -/

/-- View a row-major list of rows as a grid; only coordinates inside
the 6 by 7 board are meaningful. -/
def listGrid (l : List (List Int)) : Game.Grid :=
  fun r c => (l.getD r.toNat []).getD c.toNat 0

/-- A human player fixture. -/
def wpFix : Game.Player := { id := "p", username := "p", isBot := false }

/-- A second human player fixture. -/
def wqFix : Game.Player := { id := "q", username := "q", isBot := false }

/-- A one-move game used by several witnesses. -/
def oneMoveGame : Game.Game :=
  (Game.makeMove (Game.newGame "w" wpFix wqFix) 3).game

/-- A finished game on a full board whose last move (bottom-left,
player 1) completed a horizontal four-in-a-row: row 5 holds
1,1,1,1 in columns 0..3. -/
def fullWinGame : Game.Game :=
  { id := "cg1",
    board :=
      { grid := listGrid
          [[2, 1, 2, 1, 2, 1, 2],
           [1, 2, 1, 2, 1, 2, 1],
           [2, 1, 2, 1, 2, 1, 2],
           [1, 2, 1, 2, 1, 2, 1],
           [2, 2, 1, 1, 2, 2, 1],
           [1, 1, 1, 1, 2, 2, 2]],
        columns := 7, rows := 6,
        lastMove := { row := 5, column := 0, player := 1 } },
    player1 := wpFix, player2 := wqFix,
    currentTurn := 2, isActive := false }

/-- The C3 failing board (20 human tokens, 19 bot tokens, bot to move):
the human (player 1) holds rows 1..3 of columns 2 and 6 and can win
immediately by dropping on either column; the bot has no immediate
winning column, and the only other open column is 0. -/
def c3Board : Game.Grid :=
  listGrid
    [[0, 2, 0, 1, 2, 1, 0],
     [2, 1, 1, 1, 2, 2, 1],
     [1, 2, 1, 2, 1, 1, 1],
     [2, 1, 1, 2, 2, 2, 1],
     [2, 1, 2, 2, 1, 1, 2],
     [1, 2, 2, 1, 2, 2, 1]]

/-- The C2 fixture game: bob (player 2) has just won with four in a
row in column 6, so the game is inactive, but its entry is still in
activeGames (handleMove leaves finished sessions in the map for the
rematch flow); the turn counter has already advanced to 1. -/
def c2Game : Game.Game :=
  { id := "g1",
    board :=
      { grid := listGrid
          [[0, 0, 0, 0, 0, 0, 0],
           [0, 0, 0, 0, 0, 0, 0],
           [0, 0, 0, 0, 0, 0, 2],
           [0, 0, 0, 0, 0, 0, 2],
           [1, 0, 0, 0, 0, 0, 2],
           [1, 1, 1, 0, 0, 0, 2]],
        columns := 7, rows := 6,
        lastMove := { row := 2, column := 6, player := 2 } },
    player1 := { id := "alice", username := "alice", isBot := false },
    player2 := { id := "bob", username := "bob", isBot := false },
    currentTurn := 1, isActive := false }

/-- The C2 fixture client for alice (player 1 of c2Game). -/
def c2Alice : WS.Client :=
  { username := "alice", gameID := "g1", isBot := false, hasSend := true,
    disconnected := false, timerRunning := false }

/-- The C2 fixture client for bob. -/
def c2Bob : WS.Client :=
  { username := "bob", gameID := "g1", isBot := false, hasSend := true,
    disconnected := false, timerRunning := false }

/-- The C2 fixture session wrapper. -/
def c2WSGame : WS.WSGame :=
  { game := c2Game, player1Client := c2Alice, player2Client := c2Bob,
    playAgainRequests := [] }

/-- The C2 fixture hub. -/
def c2Hub : WS.Hub :=
  { clients := [c2Alice, c2Bob], waitingPlayer := none,
    activeGames := [("g1", c2WSGame)] }

/-- A client whose claimed game id has no entry in the fixture hub. -/
def c2Carol : WS.Client :=
  { username := "carol", gameID := "nope", isBot := false, hasSend := true,
    disconnected := false, timerRunning := false }

/-- A connected friend-mode joiner fixture. -/
def c7Alice : WS.Client :=
  { username := "alice", gameID := "", isBot := false, hasSend := true,
    disconnected := false, timerRunning := false }

/-- A second connected friend-mode joiner fixture. -/
def c7Bob : WS.Client :=
  { username := "bob", gameID := "", isBot := false, hasSend := true,
    disconnected := false, timerRunning := false }

/-- The C7 fixture hub: both clients registered, nobody waiting, no
active session. -/
def c7Hub : WS.Hub :=
  { clients := [c7Alice, c7Bob], waitingPlayer := none, activeGames := [] }

/-! Supporting lemmas about the engine embedding. -/

namespace Game


/-- IsValidMove succeeds exactly on in-range columns with an empty top cell. -/
theorem isValidMove_true_iff (b : Board) (col : Int) :
    isValidMove b col = true ↔ 0 ≤ col ∧ col < 7 ∧ b.grid 0 col = 0 := by
  unfold isValidMove
  split
  · rename_i hout
    simp only [Bool.false_eq_true, false_iff]
    rintro ⟨h1, h2, _⟩
    omega
  · rename_i hin
    push_neg at hin
    simp only [decide_eq_true_eq]
    constructor
    · intro h
      exact ⟨hin.1, by omega, h⟩
    · rintro ⟨_, _, h⟩
      exact h

/-- CheckGameCompletion never touches the board. -/
theorem checkGameCompletion_board (g : Game) : (checkGameCompletion g).board = g.board := by
  unfold checkGameCompletion
  split
  · rfl
  · split <;> rfl

/-- CheckGameCompletion never touches the turn. -/
theorem checkGameCompletion_currentTurn (g : Game) :
    (checkGameCompletion g).currentTurn = g.currentTurn := by
  unfold checkGameCompletion
  split
  · rfl
  · split <;> rfl

/-- The row-descending loop of MakeMove, characterised: starting in
range with an empty cell somewhere at or above (the top cell, by
hypothesis), it lands on the lowest empty row at or above the start. -/
theorem findRowAux_spec (g : Grid) (column : Int) :
    ∀ (fuel : Nat) (start : Int), start < (fuel : Int) → 0 ≤ start →
      g 0 column = 0 →
      0 ≤ findRowAux g column fuel start ∧
      findRowAux g column fuel start ≤ start ∧
      g (findRowAux g column fuel start) column = 0 ∧
      ∀ r, findRowAux g column fuel start < r → r ≤ start → g r column ≠ 0 := by
  intro fuel
  induction fuel with
  | zero =>
      intro start h0 h1 _
      exfalso
      simp only [Nat.cast_zero] at h0
      omega
  | succ n ih =>
      intro start hlt hge htop
      unfold findRowAux
      split
      · rename_i hcond
        have hstart_ne : start ≠ 0 := by
          intro h
          exact hcond.2 (h ▸ htop)
        have hrec := ih (start - 1) (by push_cast at hlt ⊢; omega) (by omega) htop
        refine ⟨hrec.1, by omega, hrec.2.2.1, ?_⟩
        intro r hr1 hr2
        by_cases hr : r ≤ start - 1
        · exact hrec.2.2.2 r hr1 hr
        · have : r = start := by omega
          rw [this]
          exact hcond.2
      · rename_i hcond
        push_neg at hcond
        have hempty : g start column = 0 := hcond hge
        refine ⟨hge, le_refl _, hempty, ?_⟩
        intro r hr1 hr2
        omega

/-- The landing row of MakeMove: in range, empty, with every row below
it occupied. -/
theorem findRow_spec (g : Grid) (column : Int) (htop : g 0 column = 0) :
    0 ≤ findRow g column ∧ findRow g column ≤ 5 ∧
    g (findRow g column) column = 0 ∧
    ∀ r, findRow g column < r → r ≤ 5 → g r column ≠ 0 :=
  findRowAux_spec g column 7 5 (by norm_num) (by norm_num) htop

/-- The state invariants maintained by MakeMove along every reachable
game: the turn is 1 or 2, the recorded last move is inside the board,
and every occupied cell has only occupied cells below it (gravity). -/
theorem reachable_inv (g : Game) (h : Reachable g) :
    (g.currentTurn = 1 ∨ g.currentTurn = 2) ∧
    (0 ≤ g.board.lastMove.row ∧ g.board.lastMove.row < 6 ∧
     0 ≤ g.board.lastMove.column ∧ g.board.lastMove.column < 7) ∧
    (∀ c r r' : Int, 0 ≤ c → c < 7 → 0 ≤ r → r ≤ r' → r' < 6 →
       g.board.grid r c ≠ 0 → g.board.grid r' c ≠ 0) := by
  induction h with
  | new id p1 p2 =>
      refine ⟨Or.inl rfl, by norm_num [newGame], ?_⟩
      intro c r r' _ _ _ _ _ hocc
      exact absurd rfl hocc
  | step g col hg hok ih =>
      obtain ⟨ihturn, ihlast, ihgrav⟩ := ih
      by_cases hv : isValidMove g.board col = true
      case neg =>
        exfalso
        unfold makeMove at hok
        rw [if_pos hv] at hok
        simp at hok
      case pos =>
        obtain ⟨hc0, hc1, htop⟩ := (isValidMove_true_iff g.board col).mp hv
        obtain ⟨hrow0, hrow5, hempty, hbelow⟩ := findRow_spec g.board.grid col htop
        have hturnne : g.currentTurn ≠ 0 := by rcases ihturn with h | h <;> omega
        have hmm : makeMove g col =
            { err := none,
              game := checkGameCompletion
                { g with
                    board :=
                      { g.board with
                          grid := setCell g.board.grid (findRow g.board.grid col) col g.currentTurn
                          lastMove := { row := findRow g.board.grid col, column := col,
                                        player := g.currentTurn } }
                    currentTurn := 3 - g.currentTurn } } := by
          unfold makeMove
          rw [if_neg (by simp [hv])]
        rw [hmm]
        simp only [checkGameCompletion_board, checkGameCompletion_currentTurn]
        refine ⟨by rcases ihturn with h | h <;> [right; left] <;> omega,
                ⟨hrow0, by omega, hc0, hc1⟩, ?_⟩
        intro c r r' hcc0 hcc1 hr0 hrr hr6 hocc
        by_cases htgt : r' = findRow g.board.grid col ∧ c = col
        · unfold setCell
          rw [if_pos htgt]
          exact hturnne
        · unfold setCell at hocc ⊢
          rw [if_neg htgt]
          by_cases hsrc : r = findRow g.board.grid col ∧ c = col
          · have hcol : c = col := hsrc.2
            have hrne : r' ≠ findRow g.board.grid col := by
              intro hcontra
              exact htgt ⟨hcontra, hcol⟩
            have : findRow g.board.grid col < r' := by
              have := hsrc.1
              omega
            rw [hcol]
            exact hbelow r' this (by omega)
          · rw [if_neg hsrc] at hocc
            exact ihgrav c r r' hcc0 hcc1 hr0 hrr hr6 hocc

/-- A Nat-range count hits the full window length exactly when the
predicate holds everywhere on the window. -/
theorem countP_range_eq_iff (p : Nat → Bool) (n : Nat) :
    (List.range n).countP p = n ↔ ∀ i, i < n → p i = true := by
  constructor
  · intro h i hi
    have h2 : ∀ a ∈ List.range n, p a = true :=
      List.countP_eq_length.mp (by rw [h, List.length_range])
    exact h2 i (List.mem_range.mpr hi)
  · intro h
    have h2 : (List.range n).countP p = (List.range n).length :=
      List.countP_eq_length.mpr (fun a ha => h a (List.mem_range.mp ha))
    rw [h2, List.length_range]

/-- The horizontal pass of CheckWin finds a window exactly when a
horizontal line of 4 through the cell is monochromatic; the pass never
guards the row index, so the row bounds come in as hypotheses. -/
theorem horiz_any_iff (b : Grid) (row col player : Int) (hr0 : 0 ≤ row) (hr1 : row < 6) :
    ((List.range 4).any fun (c : Nat) => horizCount b row col player c == 4) = true ↔
      lineThrough b row col player 0 1 := by
  simp only [lineThrough, horizCount]
  rw [List.any_eq_true]
  constructor
  · rintro ⟨c, hc, hcnt⟩
    rw [List.mem_range] at hc
    rw [beq_iff_eq] at hcnt
    have hall := (countP_range_eq_iff _ 4).mp hcnt
    refine ⟨c, hc, ?_⟩
    intro j hj
    have hj2 := hall j hj
    rw [decide_eq_true_eq] at hj2
    obtain ⟨h1, h2, h3⟩ := hj2
    have e1 : row + 0 * ((j : Int) - (c : Int)) = row := by ring
    have e2 : col + 1 * ((j : Int) - (c : Int)) = col - (c : Int) + (j : Int) := by ring
    rw [e1, e2]
    exact ⟨⟨hr0, hr1, h1, h2⟩, h3⟩
  · rintro ⟨k, hk, hall⟩
    refine ⟨k, List.mem_range.mpr hk, ?_⟩
    rw [beq_iff_eq]
    refine (countP_range_eq_iff _ 4).mpr ?_
    intro i hi
    rw [decide_eq_true_eq]
    obtain ⟨hin, heq⟩ := hall i hi
    have e1 : row + 0 * ((i : Int) - (k : Int)) = row := by ring
    have e2 : col + 1 * ((i : Int) - (k : Int)) = col - (k : Int) + (i : Int) := by ring
    rw [e1, e2] at hin heq
    exact ⟨hin.2.2.1, hin.2.2.2, heq⟩

/-- The vertical pass of CheckWin, with the unguarded column bounds as
hypotheses. -/
theorem vert_any_iff (b : Grid) (row col player : Int) (hc0 : 0 ≤ col) (hc1 : col < 7) :
    ((List.range 4).any fun (r : Nat) => vertCount b row col player r == 4) = true ↔
      lineThrough b row col player 1 0 := by
  simp only [lineThrough, vertCount]
  rw [List.any_eq_true]
  constructor
  · rintro ⟨r, hr, hcnt⟩
    rw [List.mem_range] at hr
    rw [beq_iff_eq] at hcnt
    have hall := (countP_range_eq_iff _ 4).mp hcnt
    refine ⟨r, hr, ?_⟩
    intro j hj
    have hj2 := hall j hj
    rw [decide_eq_true_eq] at hj2
    obtain ⟨h1, h2, h3⟩ := hj2
    have e1 : row + 1 * ((j : Int) - (r : Int)) = row - (r : Int) + (j : Int) := by ring
    have e2 : col + 0 * ((j : Int) - (r : Int)) = col := by ring
    rw [e1, e2]
    exact ⟨⟨h1, h2, hc0, hc1⟩, h3⟩
  · rintro ⟨k, hk, hall⟩
    refine ⟨k, List.mem_range.mpr hk, ?_⟩
    rw [beq_iff_eq]
    refine (countP_range_eq_iff _ 4).mpr ?_
    intro i hi
    rw [decide_eq_true_eq]
    obtain ⟨hin, heq⟩ := hall i hi
    have e1 : row + 1 * ((i : Int) - (k : Int)) = row - (k : Int) + (i : Int) := by ring
    have e2 : col + 0 * ((i : Int) - (k : Int)) = col := by ring
    rw [e1, e2] at hin heq
    exact ⟨hin.1, hin.2.1, heq⟩

/-- The first diagonal pass of CheckWin (both indices fully guarded). -/
theorem diag1_any_iff (b : Grid) (row col player : Int) :
    ((List.range 4).any fun (k : Nat) => diag1Count b row col player ((k : Int) - 3) == 4) = true ↔
      lineThrough b row col player 1 1 := by
  simp only [lineThrough, diag1Count]
  rw [List.any_eq_true]
  constructor
  · rintro ⟨k, hk, hcnt⟩
    rw [List.mem_range] at hk
    rw [beq_iff_eq] at hcnt
    have hall := (countP_range_eq_iff _ 4).mp hcnt
    refine ⟨3 - k, by omega, ?_⟩
    intro j hj
    have hj2 := hall j hj
    rw [decide_eq_true_eq] at hj2
    obtain ⟨h1, h2, h3, h4, h5⟩ := hj2
    have e1 : row + 1 * ((j : Int) - ((3 - k : Nat) : Int)) = row + ((k : Int) - 3) + (j : Int) := by
      omega
    have e2 : col + 1 * ((j : Int) - ((3 - k : Nat) : Int)) = col + ((k : Int) - 3) + (j : Int) := by
      omega
    rw [e1, e2]
    exact ⟨⟨h1, h2, h3, h4⟩, h5⟩
  · rintro ⟨k, hk, hall⟩
    refine ⟨3 - k, List.mem_range.mpr (by omega), ?_⟩
    rw [beq_iff_eq]
    refine (countP_range_eq_iff _ 4).mpr ?_
    intro i hi
    rw [decide_eq_true_eq]
    obtain ⟨hin, heq⟩ := hall i hi
    have e1 : row + (((3 - k : Nat) : Int) - 3) + (i : Int) = row + 1 * ((i : Int) - (k : Int)) := by
      omega
    have e2 : col + (((3 - k : Nat) : Int) - 3) + (i : Int) = col + 1 * ((i : Int) - (k : Int)) := by
      omega
    rw [e1, e2]
    exact ⟨hin.1, hin.2.1, hin.2.2.1, hin.2.2.2, heq⟩

/-- The second diagonal pass of CheckWin (both indices fully guarded). -/
theorem diag2_any_iff (b : Grid) (row col player : Int) :
    ((List.range 4).any fun (k : Nat) => diag2Count b row col player ((k : Int) - 3) == 4) = true ↔
      lineThrough b row col player 1 (-1) := by
  simp only [lineThrough, diag2Count]
  rw [List.any_eq_true]
  constructor
  · rintro ⟨k, hk, hcnt⟩
    rw [List.mem_range] at hk
    rw [beq_iff_eq] at hcnt
    have hall := (countP_range_eq_iff _ 4).mp hcnt
    refine ⟨3 - k, by omega, ?_⟩
    intro j hj
    have hj2 := hall j hj
    rw [decide_eq_true_eq] at hj2
    obtain ⟨h1, h2, h3, h4, h5⟩ := hj2
    have e1 : row + 1 * ((j : Int) - ((3 - k : Nat) : Int)) = row + ((k : Int) - 3) + (j : Int) := by
      omega
    have e2 : col + (-1) * ((j : Int) - ((3 - k : Nat) : Int)) =
        col - ((k : Int) - 3) - (j : Int) := by
      omega
    rw [e1, e2]
    exact ⟨⟨h1, h2, h3, h4⟩, h5⟩
  · rintro ⟨k, hk, hall⟩
    refine ⟨3 - k, List.mem_range.mpr (by omega), ?_⟩
    rw [beq_iff_eq]
    refine (countP_range_eq_iff _ 4).mpr ?_
    intro i hi
    rw [decide_eq_true_eq]
    obtain ⟨hin, heq⟩ := hall i hi
    have e1 : row + (((3 - k : Nat) : Int) - 3) + (i : Int) = row + 1 * ((i : Int) - (k : Int)) := by
      omega
    have e2 : col - (((3 - k : Nat) : Int) - 3) - (i : Int) =
        col + (-1) * ((i : Int) - (k : Int)) := by
      omega
    rw [e1, e2]
    exact ⟨hin.1, hin.2.1, hin.2.2.1, hin.2.2.2, heq⟩

/-- CheckWin, applied at an in-range cell, agrees with the spec's
"some monochromatic length-4 line through the cell" condition. -/
theorem checkWinAt_iff_winningLineThrough (b : Grid) (row col player : Int)
    (hr0 : 0 ≤ row) (hr1 : row < 6) (hc0 : 0 ≤ col) (hc1 : col < 7) :
    checkWinAt b row col player = true ↔ winningLineThrough b row col player := by
  unfold checkWinAt
  simp only [Bool.or_eq_true]
  rw [horiz_any_iff b row col player hr0 hr1,
      vert_any_iff b row col player hc0 hc1,
      diag1_any_iff b row col player,
      diag2_any_iff b row col player]
  unfold winningLineThrough
  tauto

/-- MakeMove succeeds exactly when IsValidMove accepts the column. -/
theorem makeMove_err_none_iff (g : Game) (col : Int) :
    (makeMove g col).err = none ↔ isValidMove g.board col = true := by
  unfold makeMove
  split
  · rename_i hv
    simp only [reduceCtorEq, false_iff]
    intro h
    exact hv h
  · rename_i hv
    push_neg at hv
    simp [hv]

/-- The shape of a successful MakeMove call. -/
theorem makeMove_success_eq (g : Game) (col : Int) (hv : isValidMove g.board col = true) :
    makeMove g col =
      { err := none,
        game := checkGameCompletion
          { g with
              board :=
                { g.board with
                    grid := setCell g.board.grid (findRow g.board.grid col) col g.currentTurn
                    lastMove := { row := findRow g.board.grid col, column := col,
                                  player := g.currentTurn } }
              currentTurn := 3 - g.currentTurn } } := by
  unfold makeMove
  rw [if_neg (by simp [hv])]

end Game

/-! The claims, settled. -/

/-- C1 counterexample: a terminal game whose board is full and whose
last move won is exported by GetState with status draw and no winner,
not as completed with the winner resolved. -/
theorem getState_full_win_reported_draw :
    fullWinGame.isActive = false ∧
    Game.checkWin fullWinGame = true ∧
    Game.isBoardFull fullWinGame.board = true ∧
    (Game.getState fullWinGame).status = Game.GameStatus.draw ∧
    (Game.getState fullWinGame).winner = none := by
  refine ⟨rfl, by decide, by decide, by decide, by decide⟩

/-- C1 (amended): for a terminal game, GetState reports draw exactly
when the board is full (whether or not the last move won), and reports
completed with the winner resolved from the last move exactly when
checkWin holds on a board that is not full. -/
theorem getState_terminal_status (g : Game.Game) (hterm : g.isActive = false) :
    ((Game.getState g).status = Game.GameStatus.draw ↔ Game.isBoardFull g.board = true) ∧
    (Game.isBoardFull g.board = false → Game.checkWin g = true →
      (Game.getState g).status = Game.GameStatus.completed ∧
      (Game.getState g).winner =
        some (if g.board.lastMove.player = 1 then Game.WinnerSlot.player1
              else Game.WinnerSlot.player2)) := by
  unfold Game.getState
  rw [hterm]
  simp only [Bool.false_eq_true, if_false]
  split
  · rename_i hfull
    refine ⟨by simp [hfull], ?_⟩
    intro hf _
    rw [hfull] at hf
    cases hf
  · rename_i hnf
    have hnf' : Game.isBoardFull g.board = false := by
      simpa using hnf
    split
    · rename_i hwin
      refine ⟨?_, fun _ _ => ⟨rfl, rfl⟩⟩
      simp [hnf']
    · rename_i hnw
      refine ⟨by simp [hnf'], ?_⟩
      intro _ hw
      exact absurd hw hnw

/-- C1 witness for the amended statement, at the concrete terminal
game fixture. -/
theorem getState_terminal_status_witness :
    (((Game.getState fullWinGame).status = Game.GameStatus.draw ↔
        Game.isBoardFull fullWinGame.board = true) ∧
      (Game.isBoardFull fullWinGame.board = false → Game.checkWin fullWinGame = true →
        (Game.getState fullWinGame).status = Game.GameStatus.completed ∧
        (Game.getState fullWinGame).winner =
          some (if fullWinGame.board.lastMove.player = 1 then Game.WinnerSlot.player1
                else Game.WinnerSlot.player2))) :=
  getState_terminal_status fullWinGame rfl

/-- C4: on every reachable game, CheckWin holds exactly when some
length-4 line through the recorded last move -- horizontal, vertical,
or along either diagonal -- is entirely filled with the mover's value. -/
theorem checkWin_iff_line_through_lastMove (g : Game.Game) (h : Game.Reachable g) :
    Game.checkWin g = true ↔
      Game.winningLineThrough g.board.grid g.board.lastMove.row g.board.lastMove.column
        g.board.lastMove.player := by
  obtain ⟨-, ⟨hr0, hr1, hc0, hc1⟩, -⟩ := Game.reachable_inv g h
  exact Game.checkWinAt_iff_winningLineThrough g.board.grid g.board.lastMove.row
    g.board.lastMove.column g.board.lastMove.player hr0 hr1 hc0 hc1

/-- C4 witness: the equivalence instantiated at the one-move game. -/
theorem checkWin_iff_line_through_lastMove_witness :
    Game.checkWin oneMoveGame = true ↔
      Game.winningLineThrough oneMoveGame.board.grid oneMoveGame.board.lastMove.row
        oneMoveGame.board.lastMove.column oneMoveGame.board.lastMove.player :=
  checkWin_iff_line_through_lastMove oneMoveGame
    (Game.Reachable.step (Game.newGame "w" wpFix wqFix) 3
      (Game.Reachable.new "w" wpFix wqFix) (by decide))

/-- C5: MakeMove fails exactly on an out-of-range column or an occupied
top cell; a failed call leaves the game untouched, and a successful
call drops the mover's token on the lowest empty row of the column and
records it as the last move, leaving every other cell unchanged. -/
theorem makeMove_validation_and_placement (g : Game.Game) (col : Int) :
    ((Game.makeMove g col).err.isSome = true ↔
        (col < 0 ∨ 7 ≤ col ∨ g.board.grid 0 col ≠ 0)) ∧
    ((Game.makeMove g col).err.isSome = true → (Game.makeMove g col).game = g) ∧
    ((Game.makeMove g col).err = none →
      0 ≤ Game.findRow g.board.grid col ∧ Game.findRow g.board.grid col < 6 ∧
      g.board.grid (Game.findRow g.board.grid col) col = 0 ∧
      (∀ r, Game.findRow g.board.grid col < r → r < 6 → g.board.grid r col ≠ 0) ∧
      (Game.makeMove g col).game.board.grid (Game.findRow g.board.grid col) col =
        g.currentTurn ∧
      (Game.makeMove g col).game.board.lastMove =
        { row := Game.findRow g.board.grid col, column := col, player := g.currentTurn } ∧
      ∀ r c, ¬(r = Game.findRow g.board.grid col ∧ c = col) →
        (Game.makeMove g col).game.board.grid r c = g.board.grid r c) := by
  by_cases hv : Game.isValidMove g.board col = true
  case pos =>
    obtain ⟨hc0, hc1, htop⟩ := (Game.isValidMove_true_iff g.board col).mp hv
    obtain ⟨h0, h5, hempty, hbelow⟩ := Game.findRow_spec g.board.grid col htop
    rw [Game.makeMove_success_eq g col hv]
    refine ⟨?_, ?_, ?_⟩
    · simp only [Option.isSome_none, Bool.false_eq_true, false_iff]
      push_neg
      exact ⟨by omega, by omega, htop⟩
    · intro habs
      simp at habs
    · intro _
      refine ⟨h0, by omega, hempty, ?_, ?_, ?_, ?_⟩
      · intro r hr hr6
        exact hbelow r hr (by omega)
      · simp [Game.checkGameCompletion_board, Game.setCell]
      · simp only [Game.checkGameCompletion_board]
      · intro r c hne
        simp only [Game.checkGameCompletion_board, Game.setCell]
        rw [if_neg hne]
  case neg =>
    have herr : Game.makeMove g col =
        { err := some "invalid move: column is full or out of bounds", game := g } := by
      unfold Game.makeMove
      rw [if_pos hv]
    rw [herr]
    rw [Game.isValidMove_true_iff] at hv
    push_neg at hv
    refine ⟨?_, fun _ => rfl, ?_⟩
    · simp only [Option.isSome_some, true_iff]
      by_cases hin : 0 ≤ col ∧ col < 7
      · exact Or.inr (Or.inr (hv hin.1 hin.2))
      · rcases (by omega : col < 0 ∨ 7 ≤ col) with h | h
        · exact Or.inl h
        · exact Or.inr (Or.inl h)
    · intro habs
      simp at habs

/-- C5 witness: a successful move in column 3 of a fresh game and its
placement facts. -/
theorem makeMove_validation_and_placement_witness :
    (Game.makeMove (Game.newGame "w" wpFix wqFix) 3).err = none →
      0 ≤ Game.findRow (Game.newGame "w" wpFix wqFix).board.grid 3 ∧
      Game.findRow (Game.newGame "w" wpFix wqFix).board.grid 3 < 6 ∧
      (Game.newGame "w" wpFix wqFix).board.grid
        (Game.findRow (Game.newGame "w" wpFix wqFix).board.grid 3) 3 = 0 ∧
      (∀ r, Game.findRow (Game.newGame "w" wpFix wqFix).board.grid 3 < r → r < 6 →
        (Game.newGame "w" wpFix wqFix).board.grid r 3 ≠ 0) ∧
      (Game.makeMove (Game.newGame "w" wpFix wqFix) 3).game.board.grid
        (Game.findRow (Game.newGame "w" wpFix wqFix).board.grid 3) 3 =
        (Game.newGame "w" wpFix wqFix).currentTurn ∧
      (Game.makeMove (Game.newGame "w" wpFix wqFix) 3).game.board.lastMove =
        { row := Game.findRow (Game.newGame "w" wpFix wqFix).board.grid 3, column := 3,
          player := (Game.newGame "w" wpFix wqFix).currentTurn } ∧
      ∀ r c, ¬(r = Game.findRow (Game.newGame "w" wpFix wqFix).board.grid 3 ∧ c = 3) →
        (Game.makeMove (Game.newGame "w" wpFix wqFix) 3).game.board.grid r c =
          (Game.newGame "w" wpFix wqFix).board.grid r c :=
  (makeMove_validation_and_placement (Game.newGame "w" wpFix wqFix) 3).2.2

/-- C6: a successful MakeMove on an active game leaves the game
inactive exactly when the move won or filled the board; otherwise the
game stays active. -/
theorem makeMove_deactivation_iff (g : Game.Game) (col : Int)
    (hact : g.isActive = true) (hok : (Game.makeMove g col).err = none) :
    (Game.makeMove g col).game.isActive = false ↔
      (Game.checkWin (Game.makeMove g col).game = true ∨
       Game.isBoardFull (Game.makeMove g col).game.board = true) := by
  have hv := (Game.makeMove_err_none_iff g col).mp hok
  rw [Game.makeMove_success_eq g col hv]
  have hcw : ∀ g2 : Game.Game,
      Game.checkWin (Game.checkGameCompletion g2) = Game.checkWin g2 := by
    intro g2
    unfold Game.checkWin
    rw [Game.checkGameCompletion_board]
  have hbf : ∀ g2 : Game.Game,
      Game.isBoardFull (Game.checkGameCompletion g2).board = Game.isBoardFull g2.board := by
    intro g2
    rw [Game.checkGameCompletion_board]
  simp only [hcw, hbf]
  unfold Game.checkGameCompletion
  split
  · rename_i h
    simp [h]
  · rename_i h1
    split
    · rename_i h2
      simp [h2]
    · rename_i h2
      simp only [Bool.not_eq_true] at h1 h2
      constructor
      · intro habs
        have hfalse : g.isActive = false := habs
        rw [hact] at hfalse
        cases hfalse
      · rintro (h | h)
        · rw [h1] at h
          cases h
        · rw [h2] at h
          cases h

/-- C6 witness: the first move of a fresh game neither wins nor fills
the board, and the game stays active. -/
theorem makeMove_deactivation_iff_witness :
    (Game.makeMove (Game.newGame "w" wpFix wqFix) 3).game.isActive = false ↔
      (Game.checkWin (Game.makeMove (Game.newGame "w" wpFix wqFix) 3).game = true ∨
       Game.isBoardFull (Game.makeMove (Game.newGame "w" wpFix wqFix) 3).game.board = true) :=
  makeMove_deactivation_iff (Game.newGame "w" wpFix wqFix) 3 rfl (by decide)

/-- C8: on every reachable game the turn is 1 or 2, and every
successful MakeMove sets it to 3 minus its previous value, so the turn
alternates strictly between 1 and 2 along legal play. -/
theorem currentTurn_alternation (g : Game.Game) (h : Game.Reachable g) :
    (g.currentTurn = 1 ∨ g.currentTurn = 2) ∧
    ∀ col : Int, (Game.makeMove g col).err = none →
      (Game.makeMove g col).game.currentTurn = 3 - g.currentTurn := by
  refine ⟨(Game.reachable_inv g h).1, ?_⟩
  intro col hok
  have hv := (Game.makeMove_err_none_iff g col).mp hok
  rw [Game.makeMove_success_eq g col hv]
  simp only [Game.checkGameCompletion_currentTurn]

/-- C8 witness: the fresh game has turn 1 and its first move flips the
turn to 2. -/
theorem currentTurn_alternation_witness :
    ((Game.newGame "w" wpFix wqFix).currentTurn = 1 ∨
      (Game.newGame "w" wpFix wqFix).currentTurn = 2) ∧
    ∀ col : Int, (Game.makeMove (Game.newGame "w" wpFix wqFix) col).err = none →
      (Game.makeMove (Game.newGame "w" wpFix wqFix) col).game.currentTurn =
        3 - (Game.newGame "w" wpFix wqFix).currentTurn :=
  currentTurn_alternation (Game.newGame "w" wpFix wqFix)
    (Game.Reachable.new "w" wpFix wqFix)

/-- C9: on every reachable game, IsBoardFull holds exactly when all 42
cells are occupied; inspecting the top row suffices because gravity
keeps every occupied cell above only occupied cells. -/
theorem isBoardFull_iff_all_cells (g : Game.Game) (h : Game.Reachable g) :
    Game.isBoardFull g.board = true ↔
      ∀ r c : Int, 0 ≤ r → r < 6 → 0 ≤ c → c < 7 → g.board.grid r c ≠ 0 := by
  obtain ⟨-, -, hgrav⟩ := Game.reachable_inv g h
  constructor
  · intro hfull r c hr0 hr1 hc0 hc1
    have htop : g.board.grid 0 c ≠ 0 := by
      unfold Game.isBoardFull at hfull
      rw [List.all_eq_true] at hfull
      have hmem := hfull c.toNat (List.mem_range.mpr (by omega))
      rw [decide_eq_true_eq] at hmem
      have hcast : ((c.toNat : Nat) : Int) = c := by omega
      rwa [hcast] at hmem
    exact hgrav c 0 r hc0 hc1 le_rfl hr0 hr1 htop
  · intro hall
    unfold Game.isBoardFull
    rw [List.all_eq_true]
    intro col hcol
    rw [List.mem_range] at hcol
    rw [decide_eq_true_eq]
    exact hall 0 col le_rfl (by omega) (by omega) (by omega)

/-- C9 witness: the equivalence instantiated at the fresh game. -/
theorem isBoardFull_iff_all_cells_witness :
    Game.isBoardFull (Game.newGame "w" wpFix wqFix).board = true ↔
      ∀ r c : Int, 0 ≤ r → r < 6 → 0 ≤ c → c < 7 →
        (Game.newGame "w" wpFix wqFix).board.grid r c ≠ 0 :=
  isBoardFull_iff_all_cells (Game.newGame "w" wpFix wqFix)
    (Game.Reachable.new "w" wpFix wqFix)

/-- C10: a fresh game carries the zero-valued LastMove (0, 0, 0), and
CheckWin already returns true on the untouched all-empty grid because
the empty cells (value 0) match player 0, so IsGameOver reports the
untouched board as already over. -/
theorem newGame_reports_game_over (id : String) (p1 p2 : Game.Player) :
    (Game.newGame id p1 p2).board.lastMove = { row := 0, column := 0, player := 0 } ∧
    Game.checkWin (Game.newGame id p1 p2) = true ∧
    Game.isGameOver (Game.newGame id p1 p2) = true := by
  refine ⟨rfl, rfl, rfl⟩

/-- C10 witness: the fresh-game facts at concrete players. -/
theorem newGame_reports_game_over_witness :
    (Game.newGame "w" wpFix wqFix).board.lastMove = { row := 0, column := 0, player := 0 } ∧
    Game.checkWin (Game.newGame "w" wpFix wqFix) = true ∧
    Game.isGameOver (Game.newGame "w" wpFix wqFix) = true :=
  newGame_reports_game_over "w" wpFix wqFix

/-- C2 counterexample: handleMove never tests isActive, so alice's
move on the finished (inactive) game is processed: the grid cell
(3, 0) flips from 0 to 1 in the stored session and messages go out --
refuting the claim that a move on a not-active game changes no state
and sends nothing. -/
theorem handleMove_inactive_not_rejected :
    c2Game.isActive = false ∧
    Game.checkWin c2Game = true ∧
    (WS.handleMove c2Hub c2Alice 0).2 ≠ [] ∧
    ((WS.handleMove c2Hub c2Alice 0).1.activeGames.head?.map
        fun p => p.2.game.board.grid 3 0) = some 1 ∧
    (c2Hub.activeGames.head?.map fun p => p.2.game.board.grid 3 0) = some 0 := by
  refine ⟨rfl, by decide, by decide, by decide, by decide⟩

/-- C2 (amended): handleMove rejects silently -- no hub or game state
change and no message -- when the client's game id has no entry in
activeGames, or the client's username matches neither player, or the
code's turn test fails; a not-active game still in activeGames is NOT
rejected (its moves are processed normally, as the counterexample
shows). -/
theorem handleMove_silent_rejections (h : WS.Hub) (client : WS.Client) (column : Int) :
    (WS.lookupGame h client.gameID = none → WS.handleMove h client column = (h, [])) ∧
    (∀ g, WS.lookupGame h client.gameID = some g →
      (g.game.player1.id ≠ client.username ∧ g.game.player2.id ≠ client.username →
        WS.handleMove h client column = (h, [])) ∧
      ((g.game.currentTurn ≠ 1 ∧ g.game.player1.id = client.username) ∨
       (g.game.currentTurn ≠ 2 ∧ g.game.player2.id = client.username) →
        WS.handleMove h client column = (h, []))) := by
  unfold WS.handleMove
  cases hl : WS.lookupGame h client.gameID with
  | none =>
      refine ⟨fun _ => rfl, ?_⟩
      intro g hg
      cases hg
  | some g0 =>
      constructor
      · intro hnone
        cases hnone
      · intro g hg
        injection hg with hg
        subst hg
        refine ⟨?_, ?_⟩
        · rintro ⟨h1, h2⟩
          dsimp only
          rw [if_pos ⟨h1, h2⟩]
        · intro hcond
          dsimp only
          by_cases hnp : ¬ (g0.game.player1.id = client.username) ∧
              ¬ (g0.game.player2.id = client.username)
          · rw [if_pos hnp]
          · rw [if_neg hnp, if_pos hcond]

/-- C2 witness: the no-entry rejection at a concrete hub and client. -/
theorem handleMove_silent_rejections_witness :
    WS.handleMove c2Hub c2Carol 0 = (c2Hub, []) :=
  (handleMove_silent_rejections c2Hub c2Carol 0).1 rfl

/-- C3 (code defect evidence): on the concrete failing board the bot
has no immediate winning column, the opponent (player 1) can win
immediately at column 2 (and at column 6), yet the block step
checkBlockingMove(board, humanPlayer) computes opponent = 3 - 1 = 2
and re-checks the bot's own wins, returning -1; the minimax fallback
then returns column 0, which blocks nothing (dropping player 1's token
on column 0 does not win). -/
theorem calculateNextMove_fails_to_block :
    Bot.checkWinningMove c3Board Bot.botPlayer = -1 ∧
    Bot.checkWinningMove c3Board Bot.humanPlayer = 2 ∧
    Bot.isWinningBoard (Bot.makeMove c3Board 6 Bot.humanPlayer) Bot.humanPlayer = true ∧
    Bot.checkBlockingMove c3Board Bot.humanPlayer = -1 ∧
    Bot.calculateNextMove c3Board = 0 ∧
    Bot.isWinningBoard (Bot.makeMove c3Board 0 Bot.humanPlayer) Bot.humanPlayer = false := by
  refine ⟨by decide, by decide, by decide, by decide, by decide, by decide⟩

/-- C7: starting from an empty waiting slot and two distinct connected
clients (no stale disconnected entry shares their usernames), two
consecutive friend-mode handleNewPlayer calls add exactly one new
entry to activeGames -- one game pairing the two, the first joiner as
player 1 with their fallback timer stopped -- and leave the waiting
slot empty. -/
theorem friend_mode_pairs_once (h : WS.Hub) (c1 c2 : WS.Client) (mode gid1 gid2 : String)
    (hmode : mode ≠ "computer")
    (hw : h.waitingPlayer = none)
    (hdistinct : c1.username ≠ c2.username)
    (hr1 : ∀ c ∈ h.clients, ¬(c.username = c1.username ∧ c.disconnected = true))
    (hr2 : ∀ c ∈ h.clients, ¬(c.username = c2.username ∧ c.disconnected = true)) :
    (WS.handleNewPlayer (WS.handleNewPlayer h c1 mode gid1).1 c2 mode gid2).1.activeGames =
      ((gid2,
        { game := Game.newGame gid2
            { id := c1.username, username := c1.username, isBot := false }
            { id := c2.username, username := c2.username, isBot := c2.isBot },
          player1Client := { c1 with gameID := gid2, timerRunning := false },
          player2Client := { c2 with gameID := gid2 },
          playAgainRequests := [] }) : String × WS.WSGame) :: h.activeGames ∧
    (WS.handleNewPlayer (WS.handleNewPlayer h c1 mode gid1).1 c2 mode gid2).1.waitingPlayer =
      none := by
  have hf1 : h.clients.find?
      (fun c => decide (c.username = c1.username ∧ c.disconnected = true)) = none := by
    rw [List.find?_eq_none]
    intro x hx
    simp only [decide_eq_true_eq]
    exact hr1 x hx
  have hf2 : h.clients.find?
      (fun c => decide (c.username = c2.username ∧ c.disconnected = true)) = none := by
    rw [List.find?_eq_none]
    intro x hx
    simp only [decide_eq_true_eq]
    exact hr2 x hx
  have e1 : WS.handleNewPlayer h c1 mode gid1 =
      ({ h with waitingPlayer := some { c1 with timerRunning := true } },
       if c1.hasSend then [WS.Msg.waitingMsg c1.username] else []) := by
    simp only [WS.handleNewPlayer, WS.reconnectClient, hf1, hw, if_neg hmode]
  rw [e1]
  constructor
  · simp only [WS.handleNewPlayer, WS.reconnectClient, WS.createGame, Game.newGame, hf2,
      if_neg hmode]
  · simp only [WS.handleNewPlayer, WS.reconnectClient, WS.createGame, Game.newGame, hf2,
      if_neg hmode]

/-- C7 witness: the pairing at the concrete hub and clients. -/
theorem friend_mode_pairs_once_witness :
    (WS.handleNewPlayer (WS.handleNewPlayer c7Hub c7Alice "friend" "g1").1 c7Bob "friend"
        "g2").1.activeGames =
      ((("g2",
        { game := Game.newGame "g2"
            { id := c7Alice.username, username := c7Alice.username, isBot := false }
            { id := c7Bob.username, username := c7Bob.username, isBot := c7Bob.isBot },
          player1Client := { c7Alice with gameID := "g2", timerRunning := false },
          player2Client := { c7Bob with gameID := "g2" },
          playAgainRequests := [] }) : String × WS.WSGame) : String × WS.WSGame) ::
        c7Hub.activeGames ∧
    (WS.handleNewPlayer (WS.handleNewPlayer c7Hub c7Alice "friend" "g1").1 c7Bob "friend"
        "g2").1.waitingPlayer = none :=
  friend_mode_pairs_once c7Hub c7Alice c7Bob "friend" "g1" "g2" (by decide) rfl (by decide)
    (by decide) (by decide)
